import Mathlib

/-!
Verification of the kidase-presentation repository against its specification.

The repository source (src/src-tauri/src/lib.rs) consists of the `greet`
Tauri command and the SQLite schema migrations that declare the persisted
data model (templates, presentations, slides, variables, rule_definitions,
gitsawes, verses).  The Rule Resolution & Content Assembly Engine described
by the specification operates over that schema but is not itself present in
the source tree; where a claim is decided by that missing code, the
relevant component is modelled from the spec (each such definition carries
a doc comment starting with the words: Modelled from the spec).  Schema
facts (column types, NOT NULL, DEFAULT values) are embedded from the
migration DDL in lib.rs.
-/

set_option maxRecDepth 8000

namespace Kidase

/-- Embedding of the Rust `format!` interpolation used by `greet`:
scan the template and replace the first hole (an open brace immediately
followed by a close brace) with the argument; the template in lib.rs line 6
has exactly one such hole. -/
def substHole : List Char → String → List Char
  | [], _ => []
  | '{' :: '}' :: rest, arg => arg.data ++ rest
  | c :: rest, arg => c :: substHole rest arg

/-- Embedding of `greet` (src/src-tauri/src/lib.rs lines 4-7), with the
exact template string of the source. -/
def greet (name : String) : String :=
  String.mk (substHole "Hello, {}! You\x27ve been greeted from Rust!".data name)

lemma substHole_step (c : Char) (rest : List Char) (arg : String) (h : c ≠ '{') :
    substHole (c :: rest) arg = c :: substHole rest arg := by
  rw [substHole.eq_def]
  split
  · rename_i heq
    simp at heq
  · rename_i rest1 heq
    injection heq with h1 h2
    exact absurd h1 h
  · rename_i c1 rest1 hne1 hne2 heq
    injection heq with h1 h2
    rw [h1, h2]

lemma substHole_hole_free (pre suf : List Char) (arg : String) (h : '{' ∉ pre) :
    substHole (pre ++ '{' :: '}' :: suf) arg = pre ++ arg.data ++ suf := by
  induction pre with
  | nil => rfl
  | cons c pre ih =>
    rw [List.cons_append, substHole_step c _ arg (fun hc => h (hc ▸ List.mem_cons_self c pre)),
      ih (fun hm => h (List.mem_cons_of_mem c hm))]
    simp

/-- The evaluation context: an immutable mapping of named context fields
(calendar date, observance classifier, season, operator overrides).
Modelled from the spec: section 6, Context Provider. -/
def Context : Type := List (String × String)

/-- Field lookup in a context. -/
def ctxLookup (ctx : Context) (field : String) : Option String :=
  (List.find? (fun p => p.1 == field) ctx).map (·.2)

/-- Modelled from the spec: the predicate grammar of `rule_json` (design
note, section 9): a small tagged expression tree - a field/value test
combined with conjunction, disjunction and negation - evaluated against a
context mapping. -/
inductive RulePred where
  | fieldIs (field value : String)
  | conj (a b : RulePred)
  | disj (a b : RulePred)
  | neg (a : RulePred)
deriving DecidableEq, Repr

/-- Modelled from the spec: predicate evaluation (section 4.1).  A test
that references a context field not present evaluates to false
(closed-world), never raises. -/
def evalPred : RulePred → Context → Bool
  | .fieldIs f v, ctx =>
    match ctxLookup ctx f with
    | some w => w == v
    | none => false
  | .conj a b, ctx => evalPred a ctx && evalPred b ctx
  | .disj a b, ctx => evalPred a ctx || evalPred b ctx
  | .neg a, ctx => !evalPred a ctx

/-- Row of the `gitsawes` table (migration 7, lib.rs lines 131-145):
nullable category text columns, a NOT NULL integer priority and NOT NULL
created_at. -/
structure Gitsawe where
  id : String
  lineId : String
  messageStPaul : Option String
  messageApostle : Option String
  messageBookOfActs : Option String
  misbak : Option String
  wengel : Option String
  kidaseType : Option String
  evangelist : Option String
  messageApostleEvangelist : Option String
  gitsaweType : Option String
  priority : Int
  createdAt : String
deriving DecidableEq, Repr

/-- Row of the `rule_definitions` table (migration 5, lib.rs lines 94-103;
`gitsawe_id` column added by migration 7, line 156): scope is a free TEXT
column, presentation_id / slide_id / gitsawe_id are nullable. -/
structure RuleDefinition where
  id : String
  name : String
  scope : String
  presentationId : Option String
  slideId : Option String
  ruleJson : RulePred
  isEnabled : Bool
  createdAt : String
  gitsaweId : Option String
deriving DecidableEq, Repr

/-- Row of the `templates` table (lib.rs lines 16-22); `definition_json`
is modelled from the spec (section 3) as an ordered block-layout
descriptor keyed by slide kind. -/
structure Template where
  id : String
  name : String
  maxLangCount : Nat
  blockLayout : List (String × List String)
  createdAt : String
deriving DecidableEq, Repr

/-- Row of the `presentations` table (lib.rs lines 24-33, plus
language_settings from migration 3 and is_primary from migration 11).
The `type` column is rendered as `ptype`. `language_map` is modelled from
the spec (section 3) as an ordered list of language codes. -/
structure Presentation where
  id : String
  name : String
  ptype : String
  templateId : String
  languageMap : List String
  languageSettings : Option String
  isActive : Bool
  isPrimary : Bool
  createdAt : String
deriving DecidableEq, Repr

/-- A fragment of authored or resolved text: literal text or a placeholder
referencing a Variable by name.  Modelled from the spec: section 4.5,
variable substitution over placeholder tokens embedded in text. -/
inductive Token where
  | lit (s : String)
  | placeholder (varName : String)
deriving DecidableEq, Repr

/-- Row of the `slides` table (lib.rs lines 35-45, plus footer_json from
migration 2, is_dynamic from migration 8, template_override_id from
migration 10).  The slide kind (spec section 4.4: derived from content
shape or an explicit kind field carried in the dynamic metadata) is
modelled as an explicit field; authored JSON content is modelled as token
lists. -/
structure Slide where
  id : String
  presentationId : String
  slideOrder : Int
  lineId : Option String
  kind : String
  titleJson : Option (List Token)
  blocksJson : Option (List Token)
  footerJson : Option (List Token)
  notes : Option String
  isDisabled : Bool
  isDynamic : Bool
  templateOverrideId : Option String
deriving DecidableEq, Repr

/-- Row of the `variables` table (lib.rs lines 47-53) with the four
per-language value columns added by migration 6 (lines 119-126), each
declared NOT NULL with DEFAULT the empty string. -/
structure Variable where
  id : String
  presentationId : String
  name : String
  value : String
  valueLang1 : String
  valueLang2 : String
  valueLang3 : String
  valueLang4 : String
deriving DecidableEq, Repr

/-- Row of the `verses` table (migration 9, lib.rs lines 175-188). -/
structure Verse where
  id : String
  segmentId : String
  verseOrder : Int
  titleLang1 : Option String
  titleLang2 : Option String
  titleLang3 : Option String
  titleLang4 : Option String
  textLang1 : Option String
  textLang2 : Option String
  textLang3 : Option String
  textLang4 : Option String
  createdAt : String
deriving DecidableEq, Repr

/-- The value of a Variable for a language slot (1-4); the schema declares
the four slots NOT NULL, so each existing slot holds a (possibly empty)
string, never null. -/
def valueSlot (v : Variable) : Nat → Option String
  | 1 => some v.valueLang1
  | 2 => some v.valueLang2
  | 3 => some v.valueLang3
  | 4 => some v.valueLang4
  | _ => none

/-- Creation of a Variable row without explicit per-language values: the
four migration-6 columns take their schema DEFAULT, the empty string
(lib.rs lines 120-123). -/
def newVariable (id presentationId nm value : String) : Variable :=
  { id := id, presentationId := presentationId, name := nm, value := value,
    valueLang1 := "", valueLang2 := "", valueLang3 := "", valueLang4 := "" }

/-- Modelled from the spec: a resolution target (section 4.1) - either a
Presentation id (scope = presentation) or a Slide id (scope = slide). -/
inductive Target where
  | presentationTarget (pid : String)
  | slideTarget (sid : String)
deriving DecidableEq, Repr

/-- Modelled from the spec: scope and target-id eligibility of a rule for
a target (section 4.1). -/
def targetMatches (r : RuleDefinition) : Target → Bool
  | .presentationTarget pid => r.scope == "presentation" && r.presentationId == some pid
  | .slideTarget sid => r.scope == "slide" && r.slideId == some sid

/-- Modelled from the spec: the Rule Matcher (section 4.1) - filters the
rule library down to enabled rules with matching scope and target id whose
predicate evaluates true under the context; pure, order not significant. -/
def matchRules (rules : List RuleDefinition) (t : Target) (ctx : Context) :
    List RuleDefinition :=
  rules.filter (fun r => r.isEnabled && targetMatches r t && evalPred r.ruleJson ctx)

/-- Lookup of a gitsawe record by id in the reference library. -/
def findGitsawe (gits : List Gitsawe) (gid : String) : Option Gitsawe :=
  gits.find? (fun g => g.id == gid)

/-- The priority of a rule: the `priority` of the gitsawe it references;
none when the reference is absent or dangling. -/
def rulePriority (gits : List Gitsawe) (r : RuleDefinition) : Option Int :=
  r.gitsaweId.bind (fun gid => (findGitsawe gits gid).map (·.priority))

/-- Modelled from the spec: the candidate ordering of the Priority
Resolver (section 4.2).  `beats gits r1 r2` holds when r1 outranks r2:
(a) ascending gitsawe priority - a lower number always outranks a higher
one; (b) ties broken by latest created_at; (c) further ties broken by rule
identity (lexicographic).  A rule whose priority resolves outranks one
whose reference is dangling. -/
def beats (gits : List Gitsawe) (r1 r2 : RuleDefinition) : Bool :=
  match rulePriority gits r1, rulePriority gits r2 with
  | some p1, some p2 =>
    if p1 < p2 then true
    else if p2 < p1 then false
    else if r2.createdAt < r1.createdAt then true
    else if r1.createdAt < r2.createdAt then false
    else decide (r1.id < r2.id)
  | some _, none => true
  | none, some _ => false
  | none, none =>
    if r2.createdAt < r1.createdAt then true
    else if r1.createdAt < r2.createdAt then false
    else decide (r1.id < r2.id)

/-- Modelled from the spec: the Priority Resolver (section 4.2) - picks
exactly one winning rule (or none, when the candidate set is empty) by the
deterministic `beats` ordering. -/
def resolvePriority (gits : List Gitsawe) : List RuleDefinition → Option RuleDefinition
  | [] => none
  | r :: rs => some (rs.foldl (fun best c => if beats gits c best then c else best) r)

/-- Modelled from the spec: scope precedence (section 4.2) - a slide first
asks its own scope; only if that candidate set is empty does it fall back
to the presentation scope for the same context. -/
def resolveForSlide (rules : List RuleDefinition) (gits : List Gitsawe)
    (pid sid : String) (ctx : Context) : Option RuleDefinition :=
  let slideCands := matchRules rules (.slideTarget sid) ctx
  if slideCands.isEmpty then
    resolvePriority gits (matchRules rules (.presentationTarget pid) ctx)
  else
    resolvePriority gits slideCands

/-- The error taxonomy of the engine (spec section 7); UnresolvedVariable
is a non-fatal warning, not an error, and AmbiguousRule is structurally
impossible given the deterministic tie-break. -/
inductive AssemblyError where
  | notFound
  | templateMismatch
deriving DecidableEq, Repr

/-- Lookup of a template by id. -/
def findTemplate (ts : List Template) (tid : String) : Option Template :=
  ts.find? (fun t => t.id == tid)

/-- Modelled from the spec: the effective template of a slide (section
4.4) - the slide's template override if present and valid, else the
presentation's template. -/
def effectiveTemplate (ts : List Template) (pres : Presentation) (s : Slide) :
    Option Template :=
  match s.templateOverrideId with
  | some oid =>
    match findTemplate ts oid with
    | some t => some t
    | none => findTemplate ts pres.templateId
  | none => findTemplate ts pres.templateId

/-- The block-layout entry of a template for a slide kind. -/
def layoutFor (t : Template) (kind : String) : Option (List String) :=
  (t.blockLayout.find? (fun p => p.1 == kind)).map (·.2)

/-- Modelled from the spec: the Template Resolver (section 4.4) - fails
with TemplateMismatch if the effective template has no entry for the
slide's kind, or if the presentation's language map exceeds the effective
template's language capacity; it never truncates the language list. -/
def resolveTemplate (ts : List Template) (pres : Presentation) (s : Slide) :
    Except AssemblyError (List String) :=
  match effectiveTemplate ts pres s with
  | none => .error .notFound
  | some t =>
    if pres.languageMap.length > t.maxLangCount then .error .templateMismatch
    else
      match layoutFor t s.kind with
      | none => .error .templateMismatch
      | some layout => .ok layout

/-- Modelled from the spec: the segment of verses belonging to a gitsawe
reading; the correlation key is the gitsawe's line_id (the spec leaves the
key abstract, saying only that the segment corresponds to the gitsawe's
reading segment). -/
def gitsaweSegment (g : Gitsawe) : String := g.lineId

/-- The verse-ordering relation: ascending by verse_order. -/
def verseLE (a b : Verse) : Prop := a.verseOrder ≤ b.verseOrder

instance : DecidableRel verseLE := fun _ _ => Int.decLe _ _

instance : IsTotal Verse verseLE := ⟨fun _ _ => Int.le_total _ _⟩

instance : IsTrans Verse verseLE := ⟨fun _ _ _ h1 h2 => Int.le_trans h1 h2⟩

/-- Modelled from the spec: all verses of a segment, ordered ascending by
verse_order (section 4.3). -/
def versesOfSegment (vs : List Verse) (seg : String) : List Verse :=
  List.insertionSort verseLE (vs.filter (fun v => v.segmentId == seg))

/-- The result of Gitsawe/Verse Lookup: the gitsawe record and (when verse
expansion applies) its ordered verse segment. -/
structure ResolvedContent where
  gitsawe : Gitsawe
  verses : List Verse
deriving DecidableEq, Repr

/-- Modelled from the spec: Gitsawe/Verse Lookup (section 4.3) - fetches
the gitsawe referenced by the winning rule, failing with NotFound if the
reference is dangling; when verse expansion is required, fetches the
segment's verses ordered ascending by verse_order; an empty verse set is
valid, not an error. -/
def lookupContent (gits : List Gitsawe) (vs : List Verse) (r : RuleDefinition)
    (needVerses : Bool) : Except AssemblyError ResolvedContent :=
  match r.gitsaweId with
  | none => .error .notFound
  | some gid =>
    match findGitsawe gits gid with
    | none => .error .notFound
    | some g =>
      .ok ⟨g, if needVerses then versesOfSegment vs (gitsaweSegment g) else []⟩

/-- Lookup of a Variable by name (within one presentation's variable
table). -/
def findVariable (vars : List Variable) (n : String) : Option Variable :=
  vars.find? (fun v => v.name == n)

/-- Modelled from the spec: variable substitution (section 4.5) - a
placeholder token is replaced by the matching Variable's value slot for
the current language; an unresolved placeholder is left as a literal
marker in the output (and reported as a non-fatal warning), never aborting
assembly. -/
def renderToken (vars : List Variable) (lang : Nat) : Token → String
  | .lit s => s
  | .placeholder n =>
    match findVariable vars n with
    | some v => (valueSlot v lang).getD ""
    | none => "\x7b\x7b" ++ n ++ "\x7d\x7d"

/-- Per-language rendering of a token sequence. -/
def renderTokens (vars : List Variable) (lang : Nat) (ts : List Token) : String :=
  String.join (ts.map (renderToken vars lang))

/-- The category text field of a gitsawe selected by a block kind, keyed
by the column names of the gitsawes table. -/
def gitsaweField (g : Gitsawe) : String → Option String
  | "message_st_paul" => g.messageStPaul
  | "message_apostle" => g.messageApostle
  | "message_book_of_acts" => g.messageBookOfActs
  | "misbak" => g.misbak
  | "wengel" => g.wengel
  | "message_apostle_evangelist" => g.messageApostleEvangelist
  | _ => none

/-- The verse title slot for a language (1-4). -/
def verseTitleSlot (v : Verse) : Nat → Option String
  | 1 => v.titleLang1
  | 2 => v.titleLang2
  | 3 => v.titleLang3
  | 4 => v.titleLang4
  | _ => none

/-- The verse text slot for a language (1-4). -/
def verseTextSlot (v : Verse) : Nat → Option String
  | 1 => v.textLang1
  | 2 => v.textLang2
  | 3 => v.textLang3
  | 4 => v.textLang4
  | _ => none

/-- Modelled from the spec: concatenation of verse title/text pairs in
verse order for one language (section 4.5). -/
def concatVerses (verses : List Verse) (lang : Nat) : String :=
  String.join (verses.map (fun v =>
    (verseTitleSlot v lang).getD "" ++ (verseTextSlot v lang).getD ""))

/-- A render-ready slide document: per language (by 1-based slot index of
the presentation's language map), the rendered block contents positioned
into the effective layout's block slots. -/
structure RenderedSlide where
  slideId : String
  layout : List String
  content : List (Nat × List String)
deriving DecidableEq, Repr

/-- The immutable data snapshot one resolution run reads: templates, the
rule library, gitsawe/verse reference data and the variable table (the
`variables` table; the field is named varTable because `variables` is a
reserved word in Lean). -/
structure Library where
  templates : List Template
  rules : List RuleDefinition
  gitsawes : List Gitsawe
  verses : List Verse
  varTable : List Variable
deriving DecidableEq, Repr

/-- Modelled from the spec: per-language rendering of a slide's authored
content (section 4.5) - title/blocks/footer token lists rendered verbatim
with variable substitution, restricted to the languages of the
presentation's language map. -/
def renderAuthored (pvars : List Variable) (langCount : Nat) (s : Slide) :
    List (Nat × List String) :=
  (List.range langCount).map (fun i =>
    (i + 1,
      [renderTokens pvars (i + 1) (s.titleJson.getD []),
       renderTokens pvars (i + 1) (s.blocksJson.getD []),
       renderTokens pvars (i + 1) (s.footerJson.getD [])]))

/-- Modelled from the spec: per-language rendering of resolved dynamic
content (section 4.5) - for each language slot, each layout block kind
selects the gitsawe's relevant category field, followed by the
concatenated verse title/text pairs in verse order. -/
def renderResolved (layout : List String) (rc : ResolvedContent) (langCount : Nat) :
    List (Nat × List String) :=
  (List.range langCount).map (fun i =>
    (i + 1,
      layout.map (fun kind =>
        (gitsaweField rc.gitsawe kind).getD "" ++ concatVerses rc.verses (i + 1))))

/-- Modelled from the spec: assembly of one slide (sections 4.2-4.5) -
resolve the effective layout; for a dynamic slide run rule resolution with
slide-scope precedence and look up the winning rule's content (falling
back to authored content when no rule matches); for a non-dynamic slide
use the authored content verbatim. -/
def assembleSlide (lib : Library) (pres : Presentation) (ctx : Context) (s : Slide) :
    Except AssemblyError RenderedSlide :=
  match resolveTemplate lib.templates pres s with
  | .error e => .error e
  | .ok layout =>
    let pvars := lib.varTable.filter (fun v => v.presentationId == pres.id)
    let langCount := pres.languageMap.length
    if s.isDynamic then
      match resolveForSlide lib.rules lib.gitsawes pres.id s.id ctx with
      | none =>
        .ok { slideId := s.id, layout := layout,
              content := renderAuthored pvars langCount s }
      | some r =>
        match lookupContent lib.gitsawes lib.verses r true with
        | .error e => .error e
        | .ok rc =>
          .ok { slideId := s.id, layout := layout,
                content := renderResolved layout rc langCount }
    else
      .ok { slideId := s.id, layout := layout,
            content := renderAuthored pvars langCount s }

/-- The slide-ordering relation: ascending by slide_order. -/
def slideLE (a b : Slide) : Prop := a.slideOrder ≤ b.slideOrder

instance : DecidableRel slideLE := fun _ _ => Int.decLe _ _

instance : IsTotal Slide slideLE := ⟨fun _ _ => Int.le_total _ _⟩

instance : IsTrans Slide slideLE := ⟨fun _ _ _ h1 h2 => Int.le_trans h1 h2⟩

/-- Modelled from the spec: assembly of a whole presentation (sections
4.4-4.5) - the language bound against the presentation's template
surfaces before any slide is rendered; disabled slides are skipped
entirely; output ordering follows slide_order ascending. -/
def assemblePresentation (lib : Library) (pres : Presentation)
    (slides : List Slide) (ctx : Context) :
    Except AssemblyError (List RenderedSlide) :=
  match findTemplate lib.templates pres.templateId with
  | none => .error .notFound
  | some t =>
    if pres.languageMap.length > t.maxLangCount then .error .templateMismatch
    else
      (List.insertionSort slideLE
        (slides.filter (fun s => s.presentationId == pres.id && !s.isDisabled))).mapM
        (assembleSlide lib pres ctx)

/-- Modelled from the spec: well-formedness of a RuleDefinition as the
author-managed CRUD layer maintains it (section 3) - scope is
presentation or slide, exactly one of presentation_id / slide_id is
populated consistent with the scope, and the gitsawe_id reference is
present. -/
def wfRuleDefinition (r : RuleDefinition) : Bool :=
  (r.scope == "presentation" || r.scope == "slide")
    && (if r.scope == "presentation"
        then r.presentationId.isSome && r.slideId.isNone
        else r.slideId.isSome && r.presentationId.isNone)
    && r.gitsaweId.isSome

/-- Modelled from the spec: persisting a RuleDefinition - the surrounding
application only admits well-formed rows (section 3 invariants). -/
def insertRule (store : List RuleDefinition) (r : RuleDefinition) :
    List RuleDefinition :=
  if wfRuleDefinition r then r :: store else store

/-- A rule store built from a sequence of persistence requests. -/
def buildRuleStore (rs : List RuleDefinition) : List RuleDefinition :=
  rs.foldl insertRule []

/-- Modelled from the spec: persisting a Variable - the surrounding
application keeps `name` unique within a presentation (section 3), so a
duplicate (presentation, name) pair is rejected. -/
def insertVariable (store : List Variable) (v : Variable) : List Variable :=
  if store.any (fun w => w.presentationId == v.presentationId && w.name == v.name)
  then store
  else v :: store

/-- A variable store built from a sequence of persistence requests. -/
def buildVariableStore (vs : List Variable) : List Variable :=
  vs.foldl insertVariable []

/-- Modelled from the spec: persisting a Verse - verse_order is unique
within a segment (section 3), so a duplicate (segment, order) pair is
rejected. -/
def insertVerse (store : List Verse) (v : Verse) : List Verse :=
  if store.any (fun w => w.segmentId == v.segmentId && w.verseOrder == v.verseOrder)
  then store
  else v :: store

/-- A verse store built from a sequence of persistence requests. -/
def buildVerseStore (vs : List Verse) : List Verse :=
  vs.foldl insertVerse []

/-- A sample gitsawe with priority 1 (for concrete evaluations). -/
def sampleGitsaweA : Gitsawe :=
  { id := "gA", lineId := "L1", messageStPaul := none, messageApostle := none,
    messageBookOfActs := none, misbak := some "misbak text", wengel := none,
    kidaseType := none, evangelist := none, messageApostleEvangelist := none,
    gitsaweType := none, priority := 1, createdAt := "2024-01-01" }

/-- A sample gitsawe with priority 5 (for concrete evaluations). -/
def sampleGitsaweB : Gitsawe :=
  { id := "gB", lineId := "L2", messageStPaul := none, messageApostle := none,
    messageBookOfActs := none, misbak := none, wengel := none,
    kidaseType := none, evangelist := none, messageApostleEvangelist := none,
    gitsaweType := none, priority := 5, createdAt := "2024-01-02" }

/-- A sample enabled slide-scoped rule referencing sampleGitsaweA. -/
def sampleRuleA : RuleDefinition :=
  { id := "rA", name := "rule A", scope := "slide", presentationId := none,
    slideId := some "s1", ruleJson := .fieldIs "season" "lent",
    isEnabled := true, createdAt := "2024-02-01", gitsaweId := some "gA" }

/-- A sample enabled slide-scoped rule referencing sampleGitsaweB. -/
def sampleRuleB : RuleDefinition :=
  { id := "rB", name := "rule B", scope := "slide", presentationId := none,
    slideId := some "s1", ruleJson := .fieldIs "season" "lent",
    isEnabled := true, createdAt := "2024-02-02", gitsaweId := some "gB" }

/-- A sample enabled presentation-scoped rule referencing sampleGitsaweA. -/
def sampleRuleP : RuleDefinition :=
  { id := "rP", name := "rule P", scope := "presentation",
    presentationId := some "p1", slideId := none,
    ruleJson := .fieldIs "season" "lent",
    isEnabled := true, createdAt := "2024-02-03", gitsaweId := some "gA" }

/-- A sample context under which the sample rules match. -/
def sampleCtx : Context := [("season", "lent")]

/-- A sample template with language capacity 4 and one block kind. -/
def sampleTemplate : Template :=
  { id := "t1", name := "default", maxLangCount := 4,
    blockLayout := [("misbak", ["main"])], createdAt := "2024-01-01" }

/-- A sample presentation whose language map has 5 entries, exceeding
sampleTemplate's capacity of 4. -/
def sampleWidePresentation : Presentation :=
  { id := "p1", name := "wide", ptype := "kidase", templateId := "t1",
    languageMap := ["gez", "am", "en", "ti", "or"], languageSettings := none,
    isActive := true, isPrimary := true, createdAt := "2024-01-01" }

/-- A sample slide of sampleWidePresentation. -/
def sampleSlide : Slide :=
  { id := "s1", presentationId := "p1", slideOrder := 1, lineId := none,
    kind := "misbak", titleJson := none, blocksJson := none, footerJson := none,
    notes := none, isDisabled := false, isDynamic := true,
    templateOverrideId := none }

/-- A sample library snapshot. -/
def sampleLibrary : Library :=
  { templates := [sampleTemplate],
    rules := [sampleRuleA, sampleRuleB, sampleRuleP],
    gitsawes := [sampleGitsaweA, sampleGitsaweB],
    verses := [], varTable := [] }

lemma foldl_best_mem (gits : List Gitsawe) (l : List RuleDefinition)
    (init : RuleDefinition) :
    l.foldl (fun best c => if beats gits c best then c else best) init ∈ init :: l := by
  induction l generalizing init with
  | nil => simp
  | cons c cs ih =>
    simp only [List.foldl_cons]
    rcases List.mem_cons.mp (ih (if beats gits c init then c else init)) with h | h
    · rw [h]
      by_cases hb : beats gits c init
      · simp [hb]
      · simp [hb]
    · exact List.mem_cons_of_mem _ (List.mem_cons_of_mem _ h)

lemma resolvePriority_mem {gits : List Gitsawe} {l : List RuleDefinition}
    {r : RuleDefinition} (h : resolvePriority gits l = some r) : r ∈ l := by
  cases l with
  | nil => simp [resolvePriority] at h
  | cons a as =>
    simp only [resolvePriority, Option.some.injEq] at h
    have := foldl_best_mem gits as a
    rw [h] at this
    exact this

lemma resolvePriority_isSome (gits : List Gitsawe) (l : List RuleDefinition)
    (h : l ≠ []) : (resolvePriority gits l).isSome := by
  cases l with
  | nil => exact absurd rfl h
  | cons a as => simp [resolvePriority]

lemma mem_matchRules {rules : List RuleDefinition} {t : Target} {ctx : Context}
    {r : RuleDefinition} (h : r ∈ matchRules rules t ctx) :
    r ∈ rules ∧ r.isEnabled = true ∧ targetMatches r t = true ∧
      evalPred r.ruleJson ctx = true := by
  simp only [matchRules, List.mem_filter, Bool.and_eq_true] at h
  exact ⟨h.1, h.2.1.1, h.2.1.2, h.2.2⟩

lemma resolvePriority_pair (gits : List Gitsawe) (a b : RuleDefinition) :
    resolvePriority gits [a, b] = some (if beats gits b a then b else a) := rfl

lemma mem_foldl_insertRule {rs init : List RuleDefinition} {r : RuleDefinition}
    (h : r ∈ rs.foldl insertRule init) :
    r ∈ init ∨ wfRuleDefinition r = true := by
  induction rs generalizing init with
  | nil => exact Or.inl h
  | cons a as ih =>
    simp only [List.foldl_cons] at h
    rcases ih h with hin | hwf
    · unfold insertRule at hin
      by_cases hw : wfRuleDefinition a
      · rw [if_pos hw] at hin
        rcases List.mem_cons.mp hin with he | hin2
        · exact Or.inr (he ▸ hw)
        · exact Or.inl hin2
      · rw [if_neg hw] at hin
        exact Or.inl hin
    · exact Or.inr hwf

/-- Distinctness of the (presentation, name) key of two variables. -/
def varKeyDistinct (a b : Variable) : Prop :=
  a.presentationId = b.presentationId → a.name ≠ b.name

lemma pairwise_foldl_insertVariable (vs : List Variable) (store : List Variable)
    (h : store.Pairwise varKeyDistinct) :
    (vs.foldl insertVariable store).Pairwise varKeyDistinct := by
  induction vs generalizing store with
  | nil => exact h
  | cons v vs ih =>
    simp only [List.foldl_cons]
    apply ih
    unfold insertVariable
    by_cases hdup :
        store.any (fun w => w.presentationId == v.presentationId && w.name == v.name) = true
    · rw [if_pos hdup]
      exact h
    · rw [if_neg hdup]
      refine List.Pairwise.cons ?_ h
      intro w hw hpid hname
      exact hdup (List.any_eq_true.mpr ⟨w, hw, by simp [← hpid, ← hname]⟩)

/-- Distinctness of the (segment, verse_order) key of two verses. -/
def verseKeyDistinct (a b : Verse) : Prop :=
  a.segmentId = b.segmentId → a.verseOrder ≠ b.verseOrder

lemma pairwise_foldl_insertVerse (vs : List Verse) (store : List Verse)
    (h : store.Pairwise verseKeyDistinct) :
    (vs.foldl insertVerse store).Pairwise verseKeyDistinct := by
  induction vs generalizing store with
  | nil => exact h
  | cons v vs ih =>
    simp only [List.foldl_cons]
    apply ih
    unfold insertVerse
    by_cases hdup :
        store.any (fun w => w.segmentId == v.segmentId && w.verseOrder == v.verseOrder) = true
    · rw [if_pos hdup]
      exact h
    · rw [if_neg hdup]
      refine List.Pairwise.cons ?_ h
      intro w hw hsid hord
      exact hdup (List.any_eq_true.mpr ⟨w, hw, by simp [← hsid, ← hord]⟩)

lemma beats_eval {gits : List Gitsawe} {r1 r2 : RuleDefinition} {p1 p2 : Int}
    (hp1 : rulePriority gits r1 = some p1) (hp2 : rulePriority gits r2 = some p2) :
    beats gits r1 r2 =
      (if p1 < p2 then true
       else if p2 < p1 then false
       else if r2.createdAt < r1.createdAt then true
       else if r1.createdAt < r2.createdAt then false
       else decide (r1.id < r2.id)) := by
  simp [beats, hp1, hp2]

end Kidase

open Kidase in
/-- C1: for a pair of enabled rules matching the same slide-scoped target
and context, the Priority Resolver selects the rule whose gitsawe has the
lower priority number; ties are broken by the latest created_at, remaining
ties by lexicographic rule identity; in every case both presentation
orders of the candidate pair yield the same single winner, so exactly one
deterministic winner is produced. -/
theorem priority_resolver_lower_wins
    (gits : List Gitsawe) (sid : String) (ctx : Context)
    (r1 r2 : RuleDefinition) (p1 p2 : Int)
    (he1 : r1.isEnabled = true) (ht1 : targetMatches r1 (.slideTarget sid) = true)
    (hm1 : evalPred r1.ruleJson ctx = true)
    (he2 : r2.isEnabled = true) (ht2 : targetMatches r2 (.slideTarget sid) = true)
    (hm2 : evalPred r2.ruleJson ctx = true)
    (hp1 : rulePriority gits r1 = some p1)
    (hp2 : rulePriority gits r2 = some p2) :
    matchRules [r1, r2] (.slideTarget sid) ctx = [r1, r2] ∧
    (p1 < p2 →
      resolvePriority gits (matchRules [r1, r2] (.slideTarget sid) ctx) = some r1 ∧
      resolvePriority gits (matchRules [r2, r1] (.slideTarget sid) ctx) = some r1) ∧
    (p1 = p2 → r2.createdAt < r1.createdAt →
      resolvePriority gits (matchRules [r1, r2] (.slideTarget sid) ctx) = some r1 ∧
      resolvePriority gits (matchRules [r2, r1] (.slideTarget sid) ctx) = some r1) ∧
    (p1 = p2 → r1.createdAt = r2.createdAt → r1.id < r2.id →
      resolvePriority gits (matchRules [r1, r2] (.slideTarget sid) ctx) = some r1 ∧
      resolvePriority gits (matchRules [r2, r1] (.slideTarget sid) ctx) = some r1) := by
  have hmatch12 : matchRules [r1, r2] (.slideTarget sid) ctx = [r1, r2] := by
    simp [matchRules, List.filter, he1, ht1, hm1, he2, ht2, hm2]
  have hmatch21 : matchRules [r2, r1] (.slideTarget sid) ctx = [r2, r1] := by
    simp [matchRules, List.filter, he1, ht1, hm1, he2, ht2, hm2]
  refine ⟨hmatch12, ?_, ?_, ?_⟩
  · intro hlt
    have hb21 : beats gits r2 r1 = false := by
      rw [beats_eval hp2 hp1, if_neg (by omega), if_pos hlt]
    have hb12 : beats gits r1 r2 = true := by
      rw [beats_eval hp1 hp2, if_pos hlt]
    rw [hmatch12, hmatch21, resolvePriority_pair, resolvePriority_pair, hb21, hb12]
    simp
  · intro hpe hcr
    have hb21 : beats gits r2 r1 = false := by
      rw [beats_eval hp2 hp1, if_neg (by omega), if_neg (by omega),
        if_neg (lt_asymm hcr), if_pos hcr]
    have hb12 : beats gits r1 r2 = true := by
      rw [beats_eval hp1 hp2, if_neg (by omega), if_neg (by omega), if_pos hcr]
    rw [hmatch12, hmatch21, resolvePriority_pair, resolvePriority_pair, hb21, hb12]
    simp
  · intro hpe hce hid
    have hb21 : beats gits r2 r1 = false := by
      rw [beats_eval hp2 hp1, if_neg (by omega), if_neg (by omega),
        if_neg (by rw [hce]; exact lt_irrefl _), if_neg (by rw [hce]; exact lt_irrefl _)]
      exact decide_eq_false (fun hlt => lt_asymm hid hlt)
    have hb12 : beats gits r1 r2 = true := by
      rw [beats_eval hp1 hp2, if_neg (by omega), if_neg (by omega),
        if_neg (by rw [hce]; exact lt_irrefl _), if_neg (by rw [hce]; exact lt_irrefl _)]
      exact decide_eq_true hid
    rw [hmatch12, hmatch21, resolvePriority_pair, resolvePriority_pair, hb21, hb12]
    simp

open Kidase in
/-- Witness for C1 at concrete inputs: sampleRuleA (gitsawe priority 1)
and sampleRuleB (gitsawe priority 5), both enabled, slide-scoped on slide
s1 and matching the sample context; the resolver selects sampleRuleA in
either candidate order. -/
theorem priority_resolver_lower_wins_witness :
    resolvePriority [sampleGitsaweA, sampleGitsaweB]
      (matchRules [sampleRuleA, sampleRuleB] (.slideTarget "s1") sampleCtx)
      = some sampleRuleA ∧
    resolvePriority [sampleGitsaweA, sampleGitsaweB]
      (matchRules [sampleRuleB, sampleRuleA] (.slideTarget "s1") sampleCtx)
      = some sampleRuleA :=
  (priority_resolver_lower_wins [sampleGitsaweA, sampleGitsaweB] "s1" sampleCtx
    sampleRuleA sampleRuleB 1 5 (by decide) (by decide) (by decide)
    (by decide) (by decide) (by decide) (by decide) (by decide)).2.1 (by decide)

open Kidase in
/-- C3: rule resolution for a slide consults slide-scoped rules first and
independently: whenever the slide-scoped candidate set is nonempty the
winner exists, comes from that set and is slide-scoped (so any matching
slide-scoped rule outranks any matching presentation-scoped rule,
regardless of priority numbers); presentation-scoped rules are consulted
exactly when the slide-scoped candidate set is empty. -/
theorem slide_scope_outranks_presentation
    (rules : List RuleDefinition) (gits : List Gitsawe)
    (pid sid : String) (ctx : Context) :
    (matchRules rules (.slideTarget sid) ctx ≠ [] →
      (resolveForSlide rules gits pid sid ctx).isSome = true ∧
      ∀ r, resolveForSlide rules gits pid sid ctx = some r →
        r ∈ matchRules rules (.slideTarget sid) ctx ∧ r.scope = "slide") ∧
    (matchRules rules (.slideTarget sid) ctx = [] →
      resolveForSlide rules gits pid sid ctx
        = resolvePriority gits (matchRules rules (.presentationTarget pid) ctx)) := by
  constructor
  · intro hne
    have hempty : (matchRules rules (.slideTarget sid) ctx).isEmpty = false := by
      simpa [List.isEmpty_iff] using hne
    have hres : resolveForSlide rules gits pid sid ctx
        = resolvePriority gits (matchRules rules (.slideTarget sid) ctx) := by
      simp [resolveForSlide, hempty]
    constructor
    · rw [hres]
      exact resolvePriority_isSome _ _ hne
    · intro r hr
      rw [hres] at hr
      have hmem := resolvePriority_mem hr
      refine ⟨hmem, ?_⟩
      have ht := (mem_matchRules hmem).2.2.1
      simp only [targetMatches, Bool.and_eq_true, beq_iff_eq] at ht
      exact ht.1
  · intro hempty
    simp [resolveForSlide, hempty]

open Kidase in
/-- Witness for C3 at concrete inputs: with a slide-scoped rule
(sampleRuleA) and a presentation-scoped rule (sampleRuleP) both matching,
the winner is in the slide-scoped candidate set and is slide-scoped. -/
theorem slide_scope_outranks_presentation_witness :
    sampleRuleA ∈ matchRules [sampleRuleP, sampleRuleA]
      (.slideTarget "s1") sampleCtx ∧ sampleRuleA.scope = "slide" :=
  ((slide_scope_outranks_presentation [sampleRuleP, sampleRuleA]
      [sampleGitsaweA, sampleGitsaweB] "p1" "s1" sampleCtx).1
    (by decide)).2 sampleRuleA (by decide)

open Kidase in
/-- C2: resolution and assembly are deterministic - for fixed inputs
(library snapshot, presentation, slides, context) two runs of rule
resolution and of the full resolve-and-assemble pipeline produce identical
output; the embedding is a pure function of its explicit arguments, with
no other (hidden mutable) state in scope. -/
theorem resolve_assemble_deterministic
    (lib lib2 : Library) (pres pres2 : Presentation)
    (slides slides2 : List Slide) (ctx ctx2 : Context)
    (hl : lib = lib2) (hp : pres = pres2) (hs : slides = slides2)
    (hc : ctx = ctx2) :
    (∀ sid, resolveForSlide lib.rules lib.gitsawes pres.id sid ctx
      = resolveForSlide lib2.rules lib2.gitsawes pres2.id sid ctx2) ∧
    assemblePresentation lib pres slides ctx
      = assemblePresentation lib2 pres2 slides2 ctx2 := by
  subst hl hp hs hc
  exact ⟨fun _ => rfl, rfl⟩

open Kidase in
/-- Witness for C2 at concrete inputs: two runs of the pipeline over the
sample library agree. -/
theorem resolve_assemble_deterministic_witness :
    assemblePresentation sampleLibrary sampleWidePresentation [sampleSlide] sampleCtx
      = assemblePresentation sampleLibrary sampleWidePresentation [sampleSlide]
        sampleCtx :=
  (resolve_assemble_deterministic sampleLibrary sampleLibrary
    sampleWidePresentation sampleWidePresentation [sampleSlide] [sampleSlide]
    sampleCtx sampleCtx rfl rfl rfl rfl).2

open Kidase in
/-- C4: the Template Resolver fails with TemplateMismatch whenever the
effective template has no block-layout entry for the slide's kind or the
presentation's language map exceeds the effective template's language
capacity; on success the language list is never truncated (its full length
fits the capacity); and when the presentation's language map exceeds its
own template's capacity, whole-presentation assembly fails with
TemplateMismatch before any slide is rendered. -/
theorem template_mismatch_surfaces
    (ts : List Template) (pres : Presentation) (s : Slide) (t : Template)
    (lib : Library) (pres2 : Presentation) (slides : List Slide)
    (ctx : Context) (tp : Template) :
    (effectiveTemplate ts pres s = some t →
      (layoutFor t s.kind = none ∨ pres.languageMap.length > t.maxLangCount) →
      resolveTemplate ts pres s = .error .templateMismatch) ∧
    (∀ layout, resolveTemplate ts pres s = .ok layout →
      ∃ t2, effectiveTemplate ts pres s = some t2 ∧
        pres.languageMap.length ≤ t2.maxLangCount ∧
        layoutFor t2 s.kind = some layout) ∧
    (findTemplate lib.templates pres2.templateId = some tp →
      pres2.languageMap.length > tp.maxLangCount →
      assemblePresentation lib pres2 slides ctx = .error .templateMismatch) := by
  refine ⟨?_, ?_, ?_⟩
  · intro he hbad
    simp only [resolveTemplate, he]
    by_cases hlen : pres.languageMap.length > t.maxLangCount
    · rw [if_pos hlen]
    · rw [if_neg hlen]
      rcases hbad with hnone | hgt
      · simp [hnone]
      · exact absurd hgt hlen
  · intro layout hok
    unfold resolveTemplate at hok
    split at hok
    · exact absurd hok (by simp)
    · rename_i t2 he
      by_cases hlen : pres.languageMap.length > t2.maxLangCount
      · rw [if_pos hlen] at hok
        exact absurd hok (by simp)
      · rw [if_neg hlen] at hok
        split at hok
        · exact absurd hok (by simp)
        · rename_i l hl
          refine ⟨t2, he, Nat.le_of_not_lt hlen, ?_⟩
          rw [hl]
          simpa using hok
  · intro hft hgt
    simp [assemblePresentation, hft, if_pos hgt]

open Kidase in
/-- Witness for C4 at concrete inputs: a presentation with 5 languages
against a template with capacity 4 makes whole-presentation assembly fail
with TemplateMismatch, before any slide is rendered. -/
theorem template_mismatch_surfaces_witness :
    assemblePresentation sampleLibrary sampleWidePresentation [sampleSlide]
      sampleCtx = .error .templateMismatch :=
  (template_mismatch_surfaces [sampleTemplate] sampleWidePresentation
    sampleSlide sampleTemplate sampleLibrary sampleWidePresentation
    [sampleSlide] sampleCtx sampleTemplate).2.2 (by decide) (by decide)

open Kidase in
/-- C5: Gitsawe/Verse Lookup fails with NotFound exactly when the winning
rule's gitsawe reference is dangling (absent or unresolvable), NotFound
is the only error it can produce, every successful verse expansion
returns precisely the verses of the gitsawe's segment ordered ascending by
verse_order, and an empty verse set is a valid (ok) result, not an
error. -/
theorem lookup_notfound_iff_dangling
    (gits : List Gitsawe) (vs : List Verse) (r : RuleDefinition)
    (needVerses : Bool) :
    (lookupContent gits vs r needVerses = .error .notFound ↔
      r.gitsaweId = none ∨
        ∃ gid, r.gitsaweId = some gid ∧ findGitsawe gits gid = none) ∧
    (∀ e, lookupContent gits vs r needVerses = .error e → e = .notFound) ∧
    (∀ rc, lookupContent gits vs r true = .ok rc →
      rc.verses.Pairwise verseLE ∧
      rc.verses.Perm
        (vs.filter (fun v => v.segmentId == gitsaweSegment rc.gitsawe))) ∧
    (∀ gid g, r.gitsaweId = some gid → findGitsawe gits gid = some g →
      vs.filter (fun v => v.segmentId == gitsaweSegment g) = [] →
      lookupContent gits vs r true = .ok ⟨g, []⟩) := by
  refine ⟨?_, ?_, ?_, ?_⟩
  · cases hg : r.gitsaweId with
    | none => simp [lookupContent, hg]
    | some gid =>
      cases hf : findGitsawe gits gid with
      | none => simp [lookupContent, hg, hf]
      | some g => simp [lookupContent, hg, hf]
  · intro e he
    cases hg : r.gitsaweId with
    | none => simp [lookupContent, hg] at he; exact he.symm
    | some gid =>
      cases hf : findGitsawe gits gid with
      | none => simp [lookupContent, hg, hf] at he; exact he.symm
      | some g => simp [lookupContent, hg, hf] at he
  · intro rc hok
    cases hg : r.gitsaweId with
    | none => simp [lookupContent, hg] at hok
    | some gid =>
      cases hf : findGitsawe gits gid with
      | none => simp [lookupContent, hg, hf] at hok
      | some g =>
        simp only [lookupContent, hg, hf, if_pos, Except.ok.injEq] at hok
        rw [← hok]
        constructor
        · simpa [versesOfSegment] using
            List.sorted_insertionSort verseLE
              (vs.filter (fun v => v.segmentId == gitsaweSegment g))
        · simpa [versesOfSegment] using
            List.perm_insertionSort verseLE
              (vs.filter (fun v => v.segmentId == gitsaweSegment g))
  · intro gid g hg hf hfilter
    simp [lookupContent, hg, hf, versesOfSegment, hfilter]

open Kidase in
/-- Witness for C5 at concrete inputs: sampleRuleA's gitsawe reference
resolves to sampleGitsaweA, whose segment has no verses in an empty verse
table, and lookup succeeds with an empty verse set (not an error). -/
theorem lookup_notfound_iff_dangling_witness :
    lookupContent [sampleGitsaweA, sampleGitsaweB] [] sampleRuleA true
      = .ok ⟨sampleGitsaweA, []⟩ :=
  (lookup_notfound_iff_dangling [sampleGitsaweA, sampleGitsaweB] []
    sampleRuleA true).2.2.2 "gA" sampleGitsaweA (by decide) (by decide) rfl

open Kidase in
/-- C6: every RuleDefinition in a persisted rule store has scope
"presentation" or "slide", exactly one of presentation_id / slide_id
populated consistent with that scope, and a gitsawe_id reference
present. -/
theorem rule_store_wf_invariant (rs : List RuleDefinition) (r : RuleDefinition)
    (hmem : r ∈ buildRuleStore rs) :
    (r.scope = "presentation" ∨ r.scope = "slide") ∧
    (r.scope = "presentation" →
      r.presentationId.isSome = true ∧ r.slideId = none) ∧
    (r.scope = "slide" →
      r.slideId.isSome = true ∧ r.presentationId = none) ∧
    r.gitsaweId.isSome = true := by
  rcases mem_foldl_insertRule hmem with hin | hwf
  · simp at hin
  · simp only [wfRuleDefinition, Bool.and_eq_true, Bool.or_eq_true, beq_iff_eq] at hwf
    obtain ⟨⟨hsc, hcons⟩, hg⟩ := hwf
    refine ⟨hsc, ?_, ?_, hg⟩
    · intro hp
      rw [if_pos hp] at hcons
      simp only [Bool.and_eq_true, Option.isNone_iff_eq_none] at hcons
      exact ⟨hcons.1, hcons.2⟩
    · intro hs
      have hps : r.scope ≠ "presentation" := by
        rw [hs]
        decide
      rw [if_neg hps] at hcons
      simp only [Bool.and_eq_true, Option.isNone_iff_eq_none] at hcons
      exact ⟨hcons.1, hcons.2⟩

open Kidase in
/-- Witness for C6 at a concrete input: sampleRuleA persisted into an
otherwise empty store satisfies the invariant. -/
theorem rule_store_wf_invariant_witness :
    (sampleRuleA.scope = "presentation" ∨ sampleRuleA.scope = "slide") ∧
    (sampleRuleA.scope = "presentation" →
      sampleRuleA.presentationId.isSome = true ∧ sampleRuleA.slideId = none) ∧
    (sampleRuleA.scope = "slide" →
      sampleRuleA.slideId.isSome = true ∧ sampleRuleA.presentationId = none) ∧
    sampleRuleA.gitsaweId.isSome = true :=
  rule_store_wf_invariant [sampleRuleA] sampleRuleA (by decide)

open Kidase in
/-- C7: in a persisted variable store, no two variables of the same
presentation share a name, and every variable carries one (non-null)
value per language slot 1-4. -/
theorem variable_unique_names_and_slots (vs : List Variable) :
    (buildVariableStore vs).Pairwise varKeyDistinct ∧
    ∀ v ∈ buildVariableStore vs, ∀ i, 1 ≤ i → i ≤ 4 →
      (valueSlot v i).isSome = true := by
  constructor
  · exact pairwise_foldl_insertVariable vs [] List.Pairwise.nil
  · intro v _ i h1 h4
    interval_cases i <;> simp [valueSlot]

open Kidase in
/-- Witness for C7 at a concrete input: a freshly created variable in a
one-element store has a value present in each of the four language
slots. -/
theorem variable_unique_names_and_slots_witness :
    (valueSlot (newVariable "v1" "p1" "celebrant" "x") 1).isSome = true ∧
    (valueSlot (newVariable "v1" "p1" "celebrant" "x") 4).isSome = true :=
  ⟨(variable_unique_names_and_slots [newVariable "v1" "p1" "celebrant" "x"]).2
      (newVariable "v1" "p1" "celebrant" "x") (by decide) 1 (by decide) (by decide),
   (variable_unique_names_and_slots [newVariable "v1" "p1" "celebrant" "x"]).2
      (newVariable "v1" "p1" "celebrant" "x") (by decide) 4 (by decide) (by decide)⟩

open Kidase in
/-- C8: in a persisted verse store, verse_order values are unique within
each segment, and the verses a segment lookup returns are exactly that
segment's verses arranged in strictly ascending verse_order - the
ascending render order. -/
theorem verse_order_unique_ascending (vs : List Verse) (seg : String) :
    (buildVerseStore vs).Pairwise verseKeyDistinct ∧
    (versesOfSegment (buildVerseStore vs) seg).Pairwise
      (fun a b => a.verseOrder < b.verseOrder) ∧
    (versesOfSegment (buildVerseStore vs) seg).Perm
      ((buildVerseStore vs).filter (fun v => v.segmentId == seg)) := by
  have hpw : (buildVerseStore vs).Pairwise verseKeyDistinct :=
    pairwise_foldl_insertVerse vs [] List.Pairwise.nil
  have hfil : ((buildVerseStore vs).filter
      (fun v => v.segmentId == seg)).Pairwise verseKeyDistinct :=
    List.Pairwise.sublist (List.filter_sublist _) hpw
  have hne_fil : ((buildVerseStore vs).filter
      (fun v => v.segmentId == seg)).Pairwise
      (fun a b => a.verseOrder ≠ b.verseOrder) := by
    refine List.Pairwise.imp_of_mem ?_ hfil
    intro a b ha hb hkey
    have ha2 := (List.mem_filter.mp ha).2
    have hb2 := (List.mem_filter.mp hb).2
    simp only [beq_iff_eq] at ha2 hb2
    exact hkey (ha2.trans hb2.symm)
  have hperm : (versesOfSegment (buildVerseStore vs) seg).Perm
      ((buildVerseStore vs).filter (fun v => v.segmentId == seg)) :=
    List.perm_insertionSort verseLE _
  have hsorted : (versesOfSegment (buildVerseStore vs) seg).Pairwise verseLE :=
    List.sorted_insertionSort verseLE _
  have hne : (versesOfSegment (buildVerseStore vs) seg).Pairwise
      (fun a b => a.verseOrder ≠ b.verseOrder) :=
    (List.Perm.pairwise_iff (fun h => h.symm) hperm).mpr hne_fil
  refine ⟨hpw, ?_, hperm⟩
  exact (hsorted.and hne).imp (fun h => lt_of_le_of_ne h.1 h.2)

open Kidase in
/-- C9: a Variable language slot that was never set holds the empty
string (the schema DEFAULT of migration 6) and renders as the empty
string in output - substitution of its placeholder leaves exactly the
surrounding text, with no null propagated. -/
theorem unset_slot_renders_empty
    (vid pid n value : String) (vars : List Variable) (lang : Nat)
    (h1 : 1 ≤ lang) (h4 : lang ≤ 4)
    (hf : findVariable vars n = some (newVariable vid pid n value)) :
    valueSlot (newVariable vid pid n value) lang = some "" ∧
    renderToken vars lang (Token.placeholder n) = "" ∧
    ∀ pre suf : String,
      renderTokens vars lang [Token.lit pre, Token.placeholder n, Token.lit suf]
        = pre ++ suf := by
  have hslot : valueSlot (newVariable vid pid n value) lang = some "" := by
    interval_cases lang <;> rfl
  have htok : renderToken vars lang (Token.placeholder n) = "" := by
    simp [renderToken, hf, hslot]
  refine ⟨hslot, htok, ?_⟩
  intro pre suf
  simp [renderTokens, renderToken, hf, hslot, String.join]

open Kidase in
/-- Witness for C9 at concrete inputs: the never-set slot 1 of a fresh
variable holds the empty string, its placeholder renders empty, and
substitution into surrounding text yields exactly the surrounding
text. -/
theorem unset_slot_renders_empty_witness :
    valueSlot (newVariable "v1" "p1" "celebrant" "x") 1 = some "" ∧
    renderToken [newVariable "v1" "p1" "celebrant" "x"] 1
      (Token.placeholder "celebrant") = "" ∧
    ∀ pre suf : String,
      renderTokens [newVariable "v1" "p1" "celebrant" "x"] 1
        [Token.lit pre, Token.placeholder "celebrant", Token.lit suf]
        = pre ++ suf :=
  unset_slot_renders_empty "v1" "p1" "celebrant" "x"
    [newVariable "v1" "p1" "celebrant" "x"] 1 (by decide) (by decide) (by decide)

/-- C10: for every input string `name`, the `greet` command returns exactly
the string "Hello, " followed by `name` followed by
"! You have been greeted from Rust!" (with apostrophe, as in the source);
the equation determines the output entirely from the argument, so `greet`
is a pure function of its argument. -/
theorem greet_spec (name : String) :
    Kidase.greet name = "Hello, " ++ name ++ "! You\x27ve been greeted from Rust!" := by
  apply String.ext
  show Kidase.substHole "Hello, {}! You\x27ve been greeted from Rust!".data name = _
  rw [show "Hello, {}! You\x27ve been greeted from Rust!".data
      = "Hello, ".data ++ '{' :: '}' :: "! You\x27ve been greeted from Rust!".data from by decide,
    Kidase.substHole_hole_free _ _ _ (by decide)]
  simp [String.data_append]
